import Mathlib

/-!
Shallow embedding of the mycandys products service (Express + Mongoose):
route handlers from index.js over the product schema of productModel.js.
JSON numbers are modelled as rationals, Mongoose documents as records of
optional fields, and the MongoDB collection as an association list from
assigned ids to documents kept in insertion order.
-/

/-- Product ids: opaque identifiers assigned by the store (Mongo ObjectId).
Route path parameters are modelled at the cast boundary: `some i` stands
for a string that casts to the ObjectId `i`, `none` for a malformed string
whose cast throws a CastError inside the awaited store call. -/
abbrev ProductId := Nat

/-- A product document as declared in productModel.js: each schema field is
optional, since the schema marks none of them required. -/
structure ProductDoc where
  name : Option String
  originalPrice : Option Rat
  temporaryPrice : Option Rat
  description : Option String
  category : Option String
  imgUrl : Option String
  discountId : Option String
deriving DecidableEq, Repr

/-- A JSON request body for create and update: the subset of schema fields
the caller supplies (Mongoose discards keys outside the schema). -/
abbrev ProductBody := ProductDoc

/-- The product collection: documents keyed by assigned id in insertion
order, together with the supply of fresh ids. -/
structure Store where
  docs : List (ProductId × ProductDoc)
  nextId : ProductId
deriving DecidableEq, Repr

/-- Every stored id is below the fresh-id supply; this holds of every store
reachable from the empty store and makes freshly assigned ids unique. -/
def Store.bound (st : Store) : Prop :=
  ∀ p ∈ st.docs, p.1 < st.nextId

instance (st : Store) : Decidable st.bound := by
  unfold Store.bound; infer_instance

/-- Model.findById: the entry stored under `i`, if any. -/
def lookupEntry (st : Store) (i : ProductId) : Option (ProductId × ProductDoc) :=
  st.docs.find? (fun p => p.1 == i)

/-- The document Model.findById resolves for id `i`. -/
def findById (st : Store) (i : ProductId) : Option ProductDoc :=
  (lookupEntry st i).map (fun p => p.2)

/-- Collection insert as performed by new Product(body).save(): the store
assigns the fresh id and appends the document. -/
def insertDoc (st : Store) (d : ProductDoc) : ProductId × Store :=
  (st.nextId, ⟨st.docs ++ [(st.nextId, d)], st.nextId + 1⟩)

/-- Write-back of a fetched document (document.save()) or of the document
findByIdAndUpdate computes: the entry under `i` is replaced. -/
def saveDoc (st : Store) (i : ProductId) (d : ProductDoc) : Store :=
  ⟨st.docs.map (fun p => if p.1 == i then (i, d) else p), st.nextId⟩

/-- Write effect of Model.findByIdAndDelete on a present id. -/
def removeDoc (st : Store) (i : ProductId) : Store :=
  ⟨st.docs.filter (fun p => p.1 != i), st.nextId⟩

/-- Merge of one body field over one stored field. -/
def updField (b d : Option α) : Option α :=
  match b with
  | some x => some x
  | none => d

/-- Update-object semantics of findByIdAndUpdate with a plain body: Mongoose
wraps the body in $set, so supplied fields overwrite and absent fields are
retained. -/
def setFields (d : ProductDoc) (b : ProductBody) : ProductDoc :=
  { name := updField b.name d.name
    originalPrice := updField b.originalPrice d.originalPrice
    temporaryPrice := updField b.temporaryPrice d.temporaryPrice
    description := updField b.description d.description
    category := updField b.category d.category
    imgUrl := updField b.imgUrl d.imgUrl
    discountId := updField b.discountId d.discountId }

/-- HTTP response payloads produced by the routes the claims concern. -/
inductive RespBody where
  | empty
  | error (msg : String)
  | product (p : ProductId × ProductDoc)
  | products (l : List (ProductId × ProductDoc))
deriving DecidableEq, Repr

/-- An HTTP response: status code and JSON payload. -/
structure Response where
  status : Nat
  body : RespBody
deriving DecidableEq, Repr

/-- Fixed generic responses shared by the handlers. -/
def response500 : Response := ⟨500, .error "Internal Server Error"⟩

/-- The 401 payload of the verifyToken middleware. -/
def response401 : Response := ⟨401, .error "Unauthorized"⟩

/-- The not-found payload shared by the id-addressed routes. -/
def response404 : Response := ⟨404, .error "Product not found"⟩

/-- Outcome of the axios GET verifyToken issues to the auth service:
netError is a rejected promise (network failure or non-2xx status);
okNull is a 2xx response whose parsed JSON body is null, so reading
data.userId throws a TypeError inside the try; okNoUserId is a 2xx body
that is not null but carries no userId property, so the read yields
undefined without throwing; okUserId is a 2xx body with a userId field. -/
inductive VerifyOutcome where
  | netError
  | okNull
  | okNoUserId
  | okUserId (userId : String)
deriving DecidableEq, Repr

/-- verifyToken middleware: any throw inside the try is answered with the
401 short-circuit (`none`); otherwise req.userId is set, possibly to
undefined, and next() runs the handler (`some u`). -/
def verifyToken : VerifyOutcome → Option (Option String)
  | .netError => none
  | .okNull => none
  | .okNoUserId => some none
  | .okUserId u => some (some u)

/-- POST /products: verifyToken, then new Product(req.body).save(); any
store throw (`fault`) lands in the catch that answers 500. -/
def createProduct (o : VerifyOutcome) (fault : Bool) (body : ProductBody)
    (st : Store) : Response × Store :=
  match verifyToken o with
  | none => (response401, st)
  | some _ =>
    if fault then (response500, st)
    else
      let r := insertDoc st body
      (⟨201, .product (r.1, body)⟩, r.2)

/-- GET /products: Product.find() returns the documents in natural order. -/
def getProducts (fault : Bool) (st : Store) : Response :=
  if fault then response500 else ⟨200, .products st.docs⟩

/-- GET /products/:id: a malformed id makes findById throw a CastError,
which lands in the same catch as any store fault and answers 500. -/
def getProductById (fault : Bool) (idParam : Option ProductId) (st : Store) :
    Response :=
  if fault then response500
  else
    match idParam with
    | none => response500
    | some i =>
      match findById st i with
      | none => response404
      | some d => ⟨200, .product (i, d)⟩

/-- Modelled fragment of the ECMAScript regular expressions the search route
builds with new RegExp(name, "i"): literal characters and the dot
wildcard. Patterns using other metacharacters are outside this model; the
theorems below only evaluate patterns inside the fragment. -/
inductive RegexTok where
  | lit (c : Char)
  | dot
deriving DecidableEq, Repr

/-- Pattern text to token list: a dot is the wildcard, anything else is a
literal character. -/
def parsePattern (s : String) : List RegexTok :=
  s.data.map (fun c => if c == '.' then RegexTok.dot else RegexTok.lit c)

/-- Case-insensitive single-token match (the "i" flag). -/
def tokMatches : RegexTok → Char → Bool
  | .dot, _ => true
  | .lit a, c => a.toLower == c.toLower

/-- Match the token list against the beginning of the text. -/
def matchHere : List RegexTok → List Char → Bool
  | [], _ => true
  | _ :: _, [] => false
  | t :: ts, c :: cs => tokMatches t c && matchHere ts cs

/-- Unanchored regex test, as the $regex filter applies it: the pattern may
match at any position of the text. -/
def regexSearch (ts : List RegexTok) : List Char → Bool
  | [] => matchHere ts []
  | c :: cs => matchHere ts (c :: cs) || regexSearch ts cs

/-- Whether a stored document satisfies the search filter
name: \x7b $regex: new RegExp(pattern, "i") \x7d; a document without a
name field never matches. -/
def nameMatches (pattern : String) (d : ProductDoc) : Bool :=
  match d.name with
  | none => false
  | some n => regexSearch (parsePattern pattern) n.data

/-- GET /products/search: the !name check rejects a missing or empty
parameter before the store is queried. -/
def searchProducts (fault : Bool) (nameParam : Option String) (st : Store) :
    Response :=
  match nameParam with
  | none => ⟨400, .error "Missing search query parameter \"name\""⟩
  | some name =>
    if name == "" then ⟨400, .error "Missing search query parameter \"name\""⟩
    else if fault then response500
    else ⟨200, .products (st.docs.filter (fun p => nameMatches name p.2))⟩

/-- PUT /products/:id: verifyToken, then findByIdAndUpdate(id, body,
new: true), which merges the body over the stored document with $set. -/
def updateProductById (o : VerifyOutcome) (fault : Bool)
    (idParam : Option ProductId) (body : ProductBody) (st : Store) :
    Response × Store :=
  match verifyToken o with
  | none => (response401, st)
  | some _ =>
    if fault then (response500, st)
    else
      match idParam with
      | none => (response500, st)
      | some i =>
        match findById st i with
        | none => (response404, st)
        | some d =>
          let d' := setFields d body
          (⟨200, .product (i, d')⟩, saveDoc st i d')

/-- DELETE /products/:id: verifyToken, then findByIdAndDelete; a deleted
document is answered with 204 and an empty body. -/
def deleteProductById (o : VerifyOutcome) (fault : Bool)
    (idParam : Option ProductId) (st : Store) : Response × Store :=
  match verifyToken o with
  | none => (response401, st)
  | some _ =>
    if fault then (response500, st)
    else
      match idParam with
      | none => (response500, st)
      | some i =>
        match findById st i with
        | none => (response404, st)
        | some _ => (⟨204, .empty⟩, removeDoc st i)

/-- PUT /products/:productId/discount: verifyToken, the falsy check
!productId or !temporaryPrice (an Express-matched path segment is a
nonempty string; a numeric temporaryPrice is falsy exactly at 0), then
findById, assignment of temporaryPrice and save. `productIdRaw` is the
raw path segment the falsy check reads, `productId` its cast. -/
def addDiscount (o : VerifyOutcome) (fault : Bool) (productIdRaw : String)
    (productId : Option ProductId) (temporaryPrice : Option Rat)
    (st : Store) : Response × Store :=
  match verifyToken o with
  | none => (response401, st)
  | some _ =>
    if productIdRaw = "" ∨ temporaryPrice = none ∨ temporaryPrice = some 0 then
      (⟨400, .error "Invalid data"⟩, st)
    else if fault then (response500, st)
    else
      match productId with
      | none => (response500, st)
      | some i =>
        match findById st i with
        | none => (response404, st)
        | some d =>
          let d' := { d with temporaryPrice := temporaryPrice }
          (⟨200, .product (i, d')⟩, saveDoc st i d')

/-- Lowercasing of a route parameter (String.prototype.toLowerCase),
written structurally over the character list. -/
def lowerStr (s : String) : String :=
  String.mk (s.data.map Char.toLower)

/-- Lexicographic comparison of strings by scalar value, the order MongoDB
uses for string sort keys, written structurally over character lists. -/
def strLe : List Char → List Char → Bool
  | [], _ => true
  | _ :: _, [] => false
  | a :: as, b :: bs =>
    if a.toNat < b.toNat then true
    else if a.toNat == b.toNat then strLe as bs
    else false

/-- BSON values the sort key of the sorted route can address. -/
inductive FieldVal where
  | missing
  | num (q : Rat)
  | str (s : String)
deriving DecidableEq, Repr

/-- BSON cross-type sort order restricted to the value types product
documents hold: a missing field sorts as null below numbers, and numbers
below strings. -/
def fieldLe : FieldVal → FieldVal → Bool
  | .missing, _ => true
  | .num _, .missing => false
  | .num a, .num b => decide (a ≤ b)
  | .num _, .str _ => true
  | .str _, .missing => false
  | .str _, .num _ => false
  | .str a, .str b => strLe a.data b.data

/-- The BSON value a sort key addresses in a stored document: MongoDB field
names are case-sensitive, so a key naming no schema field reads as
missing on every document. -/
def mongoField (key : String) (p : ProductId × ProductDoc) : FieldVal :=
  if key = "name" then (p.2.name.map FieldVal.str).getD .missing
  else if key = "originalPrice" then (p.2.originalPrice.map FieldVal.num).getD .missing
  else if key = "temporaryPrice" then (p.2.temporaryPrice.map FieldVal.num).getD .missing
  else if key = "description" then (p.2.description.map FieldVal.str).getD .missing
  else if key = "category" then (p.2.category.map FieldVal.str).getD .missing
  else if key = "imgUrl" then (p.2.imgUrl.map FieldVal.str).getD .missing
  else if key = "discountId" then (p.2.discountId.map FieldVal.str).getD .missing
  else .missing

/-- Insert into an already sorted list, before any tie, so that the sort is
stable: documents the sort key cannot separate keep their store order, as
MongoDB returns them in natural order. -/
def sortInsert (le : α → α → Bool) (a : α) : List α → List α
  | [] => [a]
  | b :: bs => if le a b then a :: b :: bs else b :: sortInsert le a bs

/-- Stable ascending sort, modelling sort with key order 1. -/
def insertionSort (le : α → α → Bool) : List α → List α
  | [] => []
  | a :: as => sortInsert le a (insertionSort le as)

/-- GET /products/sorted/:criteria: the lowercased criteria is checked
against the allow-list and then passed verbatim as the sort key. -/
def getProductsSorted (fault : Bool) (criteria : String) (st : Store) :
    Response :=
  let c := lowerStr criteria
  if !(["originalprice", "name", "temporaryprice"].contains c) then
    ⟨400, .error "Invalid sorting criteria"⟩
  else if fault then response500
  else
    ⟨200, .products
      (insertionSort (fun p q => fieldLe (mongoField c p) (mongoField c q))
        st.docs)⟩

/-- Case-insensitive match of the pattern text at the beginning of the
text: the spec's wording for search, with no pattern syntax involved. -/
def ciMatchHere : List Char → List Char → Bool
  | [], _ => true
  | _ :: _, [] => false
  | a :: as, b :: bs => (a.toLower == b.toLower) && ciMatchHere as bs

/-- The spec wording for search: the text contains the pattern as a
case-insensitive substring. -/
def ciContains (pat : List Char) : List Char → Bool
  | [] => ciMatchHere pat []
  | c :: cs => ciMatchHere pat (c :: cs) || ciContains pat cs

/-- Whether a stored document's name contains the parameter as a
case-insensitive substring (the filter the search claim describes). -/
def ciNameContains (pat : String) (d : ProductDoc) : Bool :=
  match d.name with
  | none => false
  | some n => ciContains pat.data n.data

/-- ECMAScript regular-expression metacharacters. -/
def regexMetaChars : List Char :=
  ['\\', '^', '$', '.', '|', '?', '*', '+', '(', ')', '[', ']', '\x7b', '\x7d']

/-- The claim wording for the sorted route: consecutive documents ascend in
the named document field. -/
def ascendingByField (key : String) : List (ProductId × ProductDoc) → Bool
  | [] => true
  | [_] => true
  | a :: b :: rest =>
    fieldLe (mongoField key a) (mongoField key b)
      && ascendingByField key (b :: rest)

/-- A sample document for the concrete theorems below. -/
def docA : ProductDoc :=
  { name := some "Apple", originalPrice := some 10, temporaryPrice := some 1,
    description := some "description", category := some "sweet",
    imgUrl := some "imgUrl", discountId := none }

/-- A second sample document, with a smaller originalPrice than docA and
some fields absent. -/
def docB : ProductDoc :=
  { name := some "Berry", originalPrice := some 5, temporaryPrice := some 2,
    description := none, category := some "sour", imgUrl := none,
    discountId := none }

/-- A store holding docA before docB, in that insertion order. -/
def twoDocStore : Store := ⟨[(0, docA), (1, docB)], 2⟩

/-- A request body supplying only a name, for the update theorems. -/
def nameOnlyBody : ProductBody :=
  { name := some "Renamed", originalPrice := none, temporaryPrice := none,
    description := none, category := none, imgUrl := none,
    discountId := none }

/-- A store holding one product named abc, for the search counterexample. -/
def abcStore : Store := ⟨[(0, { docA with name := some "abc" })], 1⟩

/-- A mutating request as fielded by the four state-changing routes; the
read routes never write the store, so only these requests matter for how
the store evolves after a delete. -/
inductive MutRequest where
  | createR (o : VerifyOutcome) (fault : Bool) (body : ProductBody)
  | updateR (o : VerifyOutcome) (fault : Bool) (idp : Option ProductId)
      (body : ProductBody)
  | deleteR (o : VerifyOutcome) (fault : Bool) (idp : Option ProductId)
  | discountR (o : VerifyOutcome) (fault : Bool) (raw : String)
      (idp : Option ProductId) (tp : Option Rat)

/-- The store once one mutating request has been handled. -/
def stepStore : MutRequest → Store → Store
  | .createR o f b, st => (createProduct o f b st).2
  | .updateR o f idp b, st => (updateProductById o f idp b st).2
  | .deleteR o f idp, st => (deleteProductById o f idp st).2
  | .discountR o f raw idp tp, st => (addDiscount o f raw idp tp st).2

/-- Replacing the entry under `i` makes the lookup of `i` resolve the new
document, provided some entry under `i` exists. -/
theorem find?_map_replace_self (i : ProductId) (d' : ProductDoc)
    (l : List (ProductId × ProductDoc))
    (h : (l.find? (fun p => p.1 == i)).isSome = true) :
    (l.map (fun p => if p.1 == i then (i, d') else p)).find?
      (fun p => p.1 == i) = some (i, d') := by
  induction l with
  | nil => simp [List.find?] at h
  | cons a as ih =>
    by_cases ha : (a.1 == i) = true
    · simp only [List.map_cons, if_pos ha]
      exact List.find?_cons_of_pos _ (by simp)
    · simp only [List.map_cons, if_neg ha]
      rw [List.find?_cons_of_neg _ (by simpa using ha)]
      rw [List.find?_cons_of_neg _ (by simpa using ha)] at h
      exact ih h

/-- Replacing the entry under `j` never makes an absent key `i` present. -/
theorem find?_map_replace_of_none (j : ProductId) (d' : ProductDoc)
    (i : ProductId) (l : List (ProductId × ProductDoc))
    (h : l.find? (fun p => p.1 == i) = none) :
    (l.map (fun p => if p.1 == j then (j, d') else p)).find?
      (fun p => p.1 == i) = none := by
  induction l with
  | nil => rfl
  | cons a as ih =>
    rw [List.find?_eq_none] at h
    have ha : (a.1 == i) = false := by
      have := h a (by simp)
      simpa using this
    have has : as.find? (fun p => p.1 == i) = none := by
      rw [List.find?_eq_none]
      intro x hx
      exact h x (by simp [hx])
    by_cases haj : (a.1 == j) = true
    · simp only [List.map_cons, if_pos haj]
      rw [List.find?_cons_of_neg _ ?_]
      · exact ih has
      · have : a.1 = j := by simpa using haj
        have hij : (j == i) = false := by
          simpa [this] using ha
        simp [hij]
    · simp only [List.map_cons, if_neg haj]
      rw [List.find?_cons_of_neg _ (by simp [ha])]
      exact ih has

/-- Replacing the entry under `j` leaves the lookup of any other key
untouched. -/
theorem find?_map_replace_other (j : ProductId) (d' : ProductDoc)
    (i : ProductId) (hij : i ≠ j) (l : List (ProductId × ProductDoc)) :
    (l.map (fun p => if p.1 == j then (j, d') else p)).find?
      (fun p => p.1 == i) = l.find? (fun p => p.1 == i) := by
  induction l with
  | nil => rfl
  | cons a as ih =>
    by_cases haj : (a.1 == j) = true
    · have haj' : a.1 = j := by simpa using haj
      have hji : (j == i) = false := by simp [Ne.symm hij]
      simp only [List.map_cons, if_pos haj]
      rw [List.find?_cons_of_neg _ (by simp [hji]),
        List.find?_cons_of_neg _ (by simp [haj', hji])]
      exact ih
    · simp only [List.map_cons, if_neg haj]
      by_cases hai : (a.1 == i) = true
      · rw [List.find?_cons_of_pos
            (as.map (fun p => if p.1 == j then (j, d') else p)) hai,
          List.find?_cons_of_pos as hai]
      · rw [List.find?_cons_of_neg
            (as.map (fun p => if p.1 == j then (j, d') else p)) hai,
          List.find?_cons_of_neg as hai]
        exact ih

/-- After saveDoc on a present id, findById resolves the new document. -/
theorem findById_saveDoc_self (st : Store) (i : ProductId)
    (d d' : ProductDoc) (h : findById st i = some d) :
    findById (saveDoc st i d') i = some d' := by
  have hsome : ((st.docs.find? (fun p => p.1 == i)).isSome = true) := by
    unfold findById lookupEntry at h
    cases he : st.docs.find? (fun p => p.1 == i) with
    | none => rw [he] at h; simp at h
    | some p => simp [he]
  unfold findById lookupEntry saveDoc
  rw [find?_map_replace_self i d' st.docs hsome]
  rfl

/-- saveDoc never makes an absent id present. -/
theorem findById_saveDoc_none (st : Store) (j : ProductId) (d' : ProductDoc)
    (i : ProductId) (h : findById st i = none) :
    findById (saveDoc st j d') i = none := by
  unfold findById lookupEntry at h ⊢
  unfold saveDoc
  cases he : st.docs.find? (fun p => p.1 == i) with
  | none =>
    rw [find?_map_replace_of_none j d' i st.docs he]
    rfl
  | some p => rw [he] at h; simp at h

/-- saveDoc on one id leaves every other id's lookup unchanged. -/
theorem findById_saveDoc_other (st : Store) (j : ProductId)
    (d' : ProductDoc) (i : ProductId) (hij : i ≠ j) :
    findById (saveDoc st j d') i = findById st i := by
  unfold findById lookupEntry saveDoc
  rw [find?_map_replace_other j d' i hij st.docs]

/-- removeDoc deletes the id from the lookup. -/
theorem findById_removeDoc_self (st : Store) (i : ProductId) :
    findById (removeDoc st i) i = none := by
  unfold findById lookupEntry removeDoc
  rw [List.find?_eq_none.2 ?_]
  · rfl
  · intro x hx
    have := (List.mem_filter.1 hx).2
    simp only [bne_iff_ne, ne_eq] at this
    simp [this]

/-- removeDoc never makes an absent id present. -/
theorem findById_removeDoc_none (st : Store) (j i : ProductId)
    (h : findById st i = none) : findById (removeDoc st j) i = none := by
  unfold findById lookupEntry at h ⊢
  unfold removeDoc
  cases he : st.docs.find? (fun p => p.1 == i) with
  | none =>
    rw [List.find?_eq_none.2 ?_]
    · rfl
    · intro x hx
      exact List.find?_eq_none.1 he x (List.mem_of_mem_filter hx)
  | some p => rw [he] at h; simp at h

/-- A bounded store does not hold its fresh id, so the appended insert is
what the fresh id resolves to. -/
theorem findById_insertDoc_self (st : Store) (d : ProductDoc)
    (hb : st.bound) : findById (insertDoc st d).2 st.nextId = some d := by
  unfold findById lookupEntry insertDoc
  rw [List.find?_append]
  rw [List.find?_eq_none.2 ?_]
  · simp [List.find?]
  · intro x hx
    have := hb x hx
    simp [Nat.ne_of_lt this]

/-- Inserting a document does not disturb the lookup of ids other than the
assigned one. -/
theorem findById_insertDoc_ne (st : Store) (d : ProductDoc)
    (i : ProductId) (hi : i ≠ st.nextId) :
    findById (insertDoc st d).2 i = findById st i := by
  unfold findById lookupEntry insertDoc
  rw [List.find?_append]
  have hne : (st.nextId == i) = false := by
    simpa using Ne.symm hi
  have : [(st.nextId, d)].find? (fun p => p.1 == i) = none := by
    simp [List.find?, hne]
  rw [this, Option.or_none]

/-- insertDoc preserves the id bound. -/
theorem bound_insertDoc (st : Store) (d : ProductDoc) (hb : st.bound) :
    (insertDoc st d).2.bound := by
  intro p hp
  simp only [insertDoc, List.mem_append, List.mem_singleton] at hp
  rcases hp with hp | hp
  · exact Nat.lt_succ_of_lt (hb p hp)
  · subst hp; exact Nat.lt_succ_self _

/-- saveDoc preserves the id bound. -/
theorem bound_saveDoc (st : Store) (i : ProductId) (d : ProductDoc)
    (hb : st.bound) : (saveDoc st i d).bound := by
  intro p hp
  simp only [saveDoc, List.mem_map] at hp
  rcases hp with ⟨q, hq, hpq⟩
  by_cases hqi : (q.1 == i) = true
  · rw [if_pos hqi] at hpq
    have hqi' : q.1 = i := by simpa using hqi
    subst hpq
    simpa [saveDoc, ← hqi'] using hb q hq
  · rw [if_neg hqi] at hpq
    subst hpq
    exact hb q hq

/-- removeDoc preserves the id bound. -/
theorem bound_removeDoc (st : Store) (i : ProductId) (hb : st.bound) :
    (removeDoc st i).bound := by
  intro p hp
  exact hb p (List.mem_of_mem_filter hp)

/-- Reduction of the getById handler on a well-formed id without fault. -/
theorem getProductById_eq (i : ProductId) (st : Store) :
    getProductById false (some i) st
      = match findById st i with
        | none => response404
        | some d => ⟨200, .product (i, d)⟩ := rfl

/-- Reduction of the create handler once the middleware let it run. -/
theorem createProduct_eq (o : VerifyOutcome) (u : Option String)
    (hv : verifyToken o = some u) (body : ProductBody) (st : Store) :
    createProduct o false body st
      = (⟨201, .product (st.nextId, body)⟩, (insertDoc st body).2) := by
  unfold createProduct
  rw [hv]
  rfl

/-- Reduction of the update handler once the middleware let it run. -/
theorem updateProductById_eq (o : VerifyOutcome) (u : Option String)
    (hv : verifyToken o = some u) (i : ProductId) (body : ProductBody)
    (st : Store) :
    updateProductById o false (some i) body st
      = match findById st i with
        | none => (response404, st)
        | some d =>
          (⟨200, .product (i, setFields d body)⟩,
           saveDoc st i (setFields d body)) := by
  unfold updateProductById
  rw [hv]
  rfl

/-- Reduction of the delete handler once the middleware let it run. -/
theorem deleteProductById_eq (o : VerifyOutcome) (u : Option String)
    (hv : verifyToken o = some u) (i : ProductId) (st : Store) :
    deleteProductById o false (some i) st
      = match findById st i with
        | none => (response404, st)
        | some _ => (⟨204, .empty⟩, removeDoc st i) := by
  unfold deleteProductById
  rw [hv]
  rfl

/-- Reduction of the discount handler once the middleware let it run and
the falsy validation passed. -/
theorem addDiscount_eq (o : VerifyOutcome) (u : Option String)
    (hv : verifyToken o = some u) (raw : String) (i : ProductId)
    (tp : Option Rat)
    (hguard : ¬(raw = "" ∨ tp = none ∨ tp = some 0)) (st : Store) :
    addDiscount o false raw (some i) tp st
      = match findById st i with
        | none => (response404, st)
        | some d =>
          (⟨200, .product (i, { d with temporaryPrice := tp })⟩,
           saveDoc st i { d with temporaryPrice := tp }) := by
  unfold addDiscount
  rw [hv, if_neg hguard]
  rfl

/-- C1: the sorted route lowercases the criteria and passes it through as
the MongoDB sort key, so the accepted criteria originalprice and
temporaryprice address no document field (the schema fields are
originalPrice and temporaryPrice, and field names are case-sensitive).
On a store holding originalPrice 10 before originalPrice 5 the route
answers 200 with the documents unreordered, not ascending in
originalPrice as documented. -/
theorem sorted_criteria_case_mismatch :
    getProductsSorted false "originalPrice" twoDocStore
      = ⟨200, .products [(0, docA), (1, docB)]⟩ ∧
    ascendingByField "originalPrice" [(0, docA), (1, docB)] = false := by
  decide

/-- C2 counterexample: the update route merges rather than replaces. -/
theorem update_full_replace_cex :
    (updateProductById (.okUserId "u") false (some 0) nameOnlyBody
        twoDocStore).1.status = 200 ∧
    findById (updateProductById (.okUserId "u") false (some 0) nameOnlyBody
        twoDocStore).2 0 ≠ some nameOnlyBody ∧
    (findById (updateProductById (.okUserId "u") false (some 0) nameOnlyBody
        twoDocStore).2 0).map ProductDoc.description
      = some (some "description") ∧
    nameOnlyBody.description = none := by
  decide

/-- C2 amended: PUT /products/:id performs a $set merge: after the 200
response the stored document is the prior document with the supplied
fields overwritten, and every field absent from the body is retained. -/
theorem update_set_semantics (o : VerifyOutcome) (u : Option String)
    (hv : verifyToken o = some u) (i : ProductId) (d : ProductDoc)
    (st : Store) (hf : findById st i = some d) (body : ProductBody) :
    (updateProductById o false (some i) body st).1
        = ⟨200, .product (i, setFields d body)⟩ ∧
    findById (updateProductById o false (some i) body st).2 i
        = some (setFields d body) ∧
    (body.name = none → (setFields d body).name = d.name) ∧
    (body.originalPrice = none →
      (setFields d body).originalPrice = d.originalPrice) ∧
    (body.temporaryPrice = none →
      (setFields d body).temporaryPrice = d.temporaryPrice) ∧
    (body.description = none →
      (setFields d body).description = d.description) ∧
    (body.category = none → (setFields d body).category = d.category) ∧
    (body.imgUrl = none → (setFields d body).imgUrl = d.imgUrl) ∧
    (body.discountId = none → (setFields d body).discountId = d.discountId) := by
  have heq : updateProductById o false (some i) body st
      = (⟨200, .product (i, setFields d body)⟩,
         saveDoc st i (setFields d body)) := by
    rw [updateProductById_eq o u hv i body st, hf]
  refine ⟨by rw [heq], ?_, ?_, ?_, ?_, ?_, ?_, ?_, ?_⟩
  · rw [heq]
    exact findById_saveDoc_self st i d _ hf
  all_goals intro h
  all_goals simp [setFields, updField, h]

/-- Concrete instance of update_set_semantics. -/
theorem update_set_semantics_witness :
    (updateProductById (.okUserId "u") false (some 0) nameOnlyBody
        twoDocStore).1
      = ⟨200, .product (0, setFields docA nameOnlyBody)⟩ :=
  (update_set_semantics (.okUserId "u") (some "u") rfl 0 docA twoDocStore
    rfl nameOnlyBody).1

/-- C4 as stated is false: a 2xx verifier response whose JSON body lacks a
userId is a malformed verifier response, yet verifyToken assigns
undefined to req.userId without throwing and calls next(), so the create
handler runs and mutates the store instead of answering 401. -/
theorem auth_malformed_response_cex :
    (createProduct .okNoUserId false docA ⟨[], 0⟩).1.status = 201 ∧
    (createProduct .okNoUserId false docA ⟨[], 0⟩).1.status ≠ 401 ∧
    (createProduct .okNoUserId false docA ⟨[], 0⟩).2 ≠ (⟨[], 0⟩ : Store) := by
  decide

/-- C4 amended: whenever the verifier call throws — a rejected promise
(network error or non-2xx status) or a 2xx body of JSON null — every
mutating route answers 401 and leaves the store unchanged. -/
theorem auth_throw_short_circuits (o : VerifyOutcome)
    (hv : verifyToken o = none) :
    (∀ fault body st, createProduct o fault body st = (response401, st)) ∧
    (∀ fault idp body st,
      updateProductById o fault idp body st = (response401, st)) ∧
    (∀ fault idp st, deleteProductById o fault idp st = (response401, st)) ∧
    (∀ fault raw idp tp st,
      addDiscount o fault raw idp tp st = (response401, st)) := by
  refine ⟨fun fault body st => ?_, fun fault idp body st => ?_,
    fun fault idp st => ?_, fun fault raw idp tp st => ?_⟩
  · unfold createProduct; rw [hv]
  · unfold updateProductById; rw [hv]
  · unfold deleteProductById; rw [hv]
  · unfold addDiscount; rw [hv]

/-- Concrete instance of auth_throw_short_circuits. -/
theorem auth_throw_short_circuits_witness :
    createProduct .netError false docA twoDocStore
      = (response401, twoDocStore) :=
  (auth_throw_short_circuits .netError rfl).1 false docA twoDocStore

/-- C8: the getById handler is a total function into the statuses 200, 404
and 500: a well-formed id matching no document answers 404, a malformed
id or a store fault answers the generic 500, and a match answers 200 with
the document; no input escapes the handler. -/
theorem getById_total (fault : Bool) (idp : Option ProductId) (st : Store) :
    ((getProductById fault idp st).status = 200 ∨
     (getProductById fault idp st).status = 404 ∨
     (getProductById fault idp st).status = 500) ∧
    (∀ i, fault = false → idp = some i → findById st i = none →
      getProductById fault idp st = response404) ∧
    (fault = false → idp = none → getProductById fault idp st = response500) ∧
    (fault = true → getProductById fault idp st = response500) ∧
    (∀ i d, fault = false → idp = some i → findById st i = some d →
      getProductById fault idp st = ⟨200, .product (i, d)⟩) := by
  refine ⟨?_, ?_, ?_, ?_, ?_⟩
  · cases fault with
    | true => right; right; rfl
    | false =>
      cases idp with
      | none => right; right; rfl
      | some i =>
        cases hf : findById st i with
        | none =>
          right; left
          rw [getProductById_eq i st, hf]
          rfl
        | some d =>
          left
          rw [getProductById_eq i st, hf]
  · intro i hfault hidp hnone
    subst hfault; subst hidp
    rw [getProductById_eq i st, hnone]
  · intro hfault hidp
    subst hfault; subst hidp
    rfl
  · intro hfault
    subst hfault
    rfl
  · intro i d hfault hidp hsome
    subst hfault; subst hidp
    rw [getProductById_eq i st, hsome]

/-- Concrete instance of getById_total. -/
theorem getById_total_witness :
    getProductById false (some 5) twoDocStore = response404 :=
  (getById_total false (some 5) twoDocStore).2.1 5 rfl rfl rfl

/-- C3: on an existing product, the discount route rejects an absent or
zero temporaryPrice with 400 and leaves the store unchanged (the falsy
check treats 0 as missing), while any nonzero numeric temporaryPrice is
answered with 200 and stored exactly. -/
theorem discount_zero_rejected_nonzero_applied (o : VerifyOutcome)
    (u : Option String) (hv : verifyToken o = some u) (raw : String)
    (hraw : raw ≠ "") (i : ProductId) (d : ProductDoc) (st : Store)
    (hf : findById st i = some d) :
    addDiscount o false raw (some i) none st
        = (⟨400, .error "Invalid data"⟩, st) ∧
    addDiscount o false raw (some i) (some 0) st
        = (⟨400, .error "Invalid data"⟩, st) ∧
    ∀ q : Rat, q ≠ 0 →
      (addDiscount o false raw (some i) (some q) st).1
          = ⟨200, .product (i, { d with temporaryPrice := some q })⟩ ∧
      findById (addDiscount o false raw (some i) (some q) st).2 i
          = some { d with temporaryPrice := some q } := by
  refine ⟨?_, ?_, ?_⟩
  · unfold addDiscount
    rw [hv, if_pos (Or.inr (Or.inl rfl))]
  · unfold addDiscount
    rw [hv, if_pos (Or.inr (Or.inr rfl))]
  · intro q hq
    have hguard : ¬(raw = "" ∨ (some q : Option Rat) = none ∨
        (some q : Option Rat) = some 0) := by
      push_neg
      exact ⟨hraw, by simp, by simpa using hq⟩
    have heq : addDiscount o false raw (some i) (some q) st
        = (⟨200, .product (i, { d with temporaryPrice := some q })⟩,
           saveDoc st i { d with temporaryPrice := some q }) := by
      rw [addDiscount_eq o u hv raw i (some q) hguard st, hf]
    exact ⟨by rw [heq],
      by rw [heq]; exact findById_saveDoc_self st i d _ hf⟩

/-- Concrete instance of discount_zero_rejected_nonzero_applied. -/
theorem discount_zero_rejected_nonzero_applied_witness :
    addDiscount (.okUserId "u") false "0" (some 0) (some 0) twoDocStore
      = (⟨400, .error "Invalid data"⟩, twoDocStore) :=
  (discount_zero_rejected_nonzero_applied (.okUserId "u") (some "u") rfl
    "0" (by decide) 0 docA twoDocStore rfl).2.1

/-- C9: whenever the discount route answers 200, the stored product is the
prior document with only temporaryPrice replaced: id, name,
originalPrice, description, category, imgUrl and discountId all keep
their prior values, and every other stored product is untouched. -/
theorem discount_frame (o : VerifyOutcome) (fault : Bool) (raw : String)
    (idp : Option ProductId) (tp : Option Rat) (st : Store)
    (h200 : (addDiscount o fault raw idp tp st).1.status = 200) :
    ∃ i d, idp = some i ∧ findById st i = some d ∧
      findById (addDiscount o fault raw idp tp st).2 i
          = some { d with temporaryPrice := tp } ∧
      ({ d with temporaryPrice := tp } : ProductDoc).name = d.name ∧
      ({ d with temporaryPrice := tp } : ProductDoc).originalPrice
          = d.originalPrice ∧
      ({ d with temporaryPrice := tp } : ProductDoc).description
          = d.description ∧
      ({ d with temporaryPrice := tp } : ProductDoc).category = d.category ∧
      ({ d with temporaryPrice := tp } : ProductDoc).imgUrl = d.imgUrl ∧
      ({ d with temporaryPrice := tp } : ProductDoc).discountId
          = d.discountId ∧
      ∀ j, j ≠ i →
        findById (addDiscount o fault raw idp tp st).2 j = findById st j := by
  have hkey : ∃ u i d, verifyToken o = some u ∧ idp = some i ∧
      ¬(raw = "" ∨ tp = none ∨ tp = some 0) ∧ fault = false ∧
      findById st i = some d := by
    unfold addDiscount at h200
    split at h200
    · simp [response401] at h200
    · split at h200
      · simp at h200
      · split at h200
        · simp [response500] at h200
        · split at h200
          · simp [response500] at h200
          · split at h200
            · simp [response404] at h200
            · refine ⟨_, _, _, by assumption, rfl, by assumption,
                ?_, by assumption⟩
              have hft : ¬(fault = true) := by assumption
              simpa using hft
  obtain ⟨u, i, d, hv, hidp, hguard, hfault, hf⟩ := hkey
  subst hidp; subst hfault
  have heq : addDiscount o false raw (some i) tp st
      = (⟨200, .product (i, { d with temporaryPrice := tp })⟩,
         saveDoc st i { d with temporaryPrice := tp }) := by
    rw [addDiscount_eq o u hv raw i tp hguard st, hf]
  refine ⟨i, d, rfl, hf, ?_, rfl, rfl, rfl, rfl, rfl, rfl, ?_⟩
  · rw [heq]
    exact findById_saveDoc_self st i d _ hf
  · intro j hj
    rw [heq]
    exact findById_saveDoc_other st i _ j hj

/-- Concrete instance of discount_frame. -/
theorem discount_frame_witness :
    ∃ i d, (some 0 : Option ProductId) = some i ∧
      findById twoDocStore i = some d ∧
      findById (addDiscount (.okUserId "u") false "0" (some 0) (some 3)
          twoDocStore).2 i = some { d with temporaryPrice := some 3 } ∧
      ({ d with temporaryPrice := some 3 } : ProductDoc).name = d.name ∧
      ({ d with temporaryPrice := some 3 } : ProductDoc).originalPrice
          = d.originalPrice ∧
      ({ d with temporaryPrice := some 3 } : ProductDoc).description
          = d.description ∧
      ({ d with temporaryPrice := some 3 } : ProductDoc).category
          = d.category ∧
      ({ d with temporaryPrice := some 3 } : ProductDoc).imgUrl
          = d.imgUrl ∧
      ({ d with temporaryPrice := some 3 } : ProductDoc).discountId
          = d.discountId ∧
      ∀ j, j ≠ i →
        findById (addDiscount (.okUserId "u") false "0" (some 0) (some 3)
            twoDocStore).2 j = findById twoDocStore j :=
  discount_frame (.okUserId "u") false "0" (some 0) (some 3) twoDocStore
    (by decide)

/-- C6: an authenticated create of any payload answers 201 carrying the
assigned id and the payload, and getById on that id then answers 200
with exactly the payload plus the assigned id. -/
theorem create_then_getById (u : String) (body : ProductBody) (st : Store)
    (hb : st.bound) :
    (createProduct (.okUserId u) false body st).1
        = ⟨201, .product (st.nextId, body)⟩ ∧
    getProductById false (some st.nextId)
        (createProduct (.okUserId u) false body st).2
      = ⟨200, .product (st.nextId, body)⟩ := by
  have heq : createProduct (.okUserId u) false body st
      = (⟨201, .product (st.nextId, body)⟩, (insertDoc st body).2) :=
    createProduct_eq (.okUserId u) (some u) rfl body st
  constructor
  · rw [heq]
  · rw [heq, getProductById_eq st.nextId (insertDoc st body).2,
      findById_insertDoc_self st body hb]

/-- Concrete instance of create_then_getById. -/
theorem create_then_getById_witness :
    (createProduct (.okUserId "u") false docB twoDocStore).1
        = ⟨201, .product (2, docB)⟩ ∧
    getProductById false (some 2)
        (createProduct (.okUserId "u") false docB twoDocStore).2
      = ⟨200, .product (2, docB)⟩ :=
  create_then_getById "u" docB twoDocStore (by decide)

/-- The create handler either leaves the store alone or inserts the body. -/
theorem createProduct_state (o : VerifyOutcome) (f : Bool) (b : ProductBody)
    (st : Store) :
    (createProduct o f b st).2 = st ∨
    (createProduct o f b st).2 = (insertDoc st b).2 := by
  unfold createProduct
  cases verifyToken o with
  | none => exact Or.inl rfl
  | some u =>
    cases f with
    | false => exact Or.inr rfl
    | true => exact Or.inl rfl

/-- The update handler either leaves the store alone or saves the merged
document over a present id. -/
theorem updateProductById_state (o : VerifyOutcome) (f : Bool)
    (idp : Option ProductId) (b : ProductBody) (st : Store) :
    (updateProductById o f idp b st).2 = st ∨
    ∃ i d, findById st i = some d ∧
      (updateProductById o f idp b st).2 = saveDoc st i (setFields d b) := by
  cases hv : verifyToken o with
  | none =>
    left
    unfold updateProductById
    rw [hv]
  | some u =>
    cases f with
    | true =>
      left
      unfold updateProductById
      rw [hv]
      rfl
    | false =>
      cases idp with
      | none =>
        left
        unfold updateProductById
        rw [hv]
        rfl
      | some i =>
        rw [updateProductById_eq o u hv i b st]
        cases hf : findById st i with
        | none => exact Or.inl rfl
        | some d => exact Or.inr ⟨i, d, hf, rfl⟩

/-- The delete handler either leaves the store alone or removes one id. -/
theorem deleteProductById_state (o : VerifyOutcome) (f : Bool)
    (idp : Option ProductId) (st : Store) :
    (deleteProductById o f idp st).2 = st ∨
    ∃ i, (deleteProductById o f idp st).2 = removeDoc st i := by
  cases hv : verifyToken o with
  | none =>
    left
    unfold deleteProductById
    rw [hv]
  | some u =>
    cases f with
    | true =>
      left
      unfold deleteProductById
      rw [hv]
      rfl
    | false =>
      cases idp with
      | none =>
        left
        unfold deleteProductById
        rw [hv]
        rfl
      | some i =>
        rw [deleteProductById_eq o u hv i st]
        cases hf : findById st i with
        | none => exact Or.inl rfl
        | some d => exact Or.inr ⟨i, rfl⟩

/-- The discount handler either leaves the store alone or saves the
reprised document over a present id. -/
theorem addDiscount_state (o : VerifyOutcome) (f : Bool) (raw : String)
    (idp : Option ProductId) (tp : Option Rat) (st : Store) :
    (addDiscount o f raw idp tp st).2 = st ∨
    ∃ i d, findById st i = some d ∧
      (addDiscount o f raw idp tp st).2
        = saveDoc st i { d with temporaryPrice := tp } := by
  cases hv : verifyToken o with
  | none =>
    left
    unfold addDiscount
    rw [hv]
  | some u =>
    by_cases hg : raw = "" ∨ tp = none ∨ tp = some 0
    · left
      unfold addDiscount
      rw [hv, if_pos hg]
    · cases f with
      | true =>
        left
        unfold addDiscount
        rw [hv, if_neg hg]
        rfl
      | false =>
        cases idp with
        | none =>
          left
          unfold addDiscount
          rw [hv, if_neg hg]
          rfl
        | some i =>
          rw [addDiscount_eq o u hv raw i tp hg st]
          cases hf : findById st i with
          | none => exact Or.inl rfl
          | some d => exact Or.inr ⟨i, d, hf, rfl⟩

/-- No mutating request shrinks the fresh-id supply. -/
theorem stepStore_nextId (r : MutRequest) (st : Store) :
    st.nextId ≤ (stepStore r st).nextId := by
  cases r with
  | createR o f b =>
    show st.nextId ≤ (createProduct o f b st).2.nextId
    rcases createProduct_state o f b st with hs | hs <;> rw [hs]
    exact Nat.le_succ _
  | updateR o f idp b =>
    show st.nextId ≤ (updateProductById o f idp b st).2.nextId
    rcases updateProductById_state o f idp b st with hs | ⟨j, d, hfj, hs⟩ <;>
      rw [hs]
    exact Nat.le_refl _
  | deleteR o f idp =>
    show st.nextId ≤ (deleteProductById o f idp st).2.nextId
    rcases deleteProductById_state o f idp st with hs | ⟨j, hs⟩ <;> rw [hs]
    exact Nat.le_refl _
  | discountR o f raw idp tp =>
    show st.nextId ≤ (addDiscount o f raw idp tp st).2.nextId
    rcases addDiscount_state o f raw idp tp st with hs | ⟨j, d, hfj, hs⟩ <;>
      rw [hs]
    exact Nat.le_refl _

/-- An id below the fresh-id supply that resolves to no document still
resolves to no document after any one mutating request: ids are never
reused. -/
theorem stepStore_absent (r : MutRequest) (st : Store) (i : ProductId)
    (hi : i < st.nextId) (h : findById st i = none) :
    findById (stepStore r st) i = none := by
  cases r with
  | createR o f b =>
    show findById (createProduct o f b st).2 i = none
    rcases createProduct_state o f b st with hs | hs <;> rw [hs]
    · exact h
    · rw [findById_insertDoc_ne st b i (Nat.ne_of_lt hi)]
      exact h
  | updateR o f idp b =>
    show findById (updateProductById o f idp b st).2 i = none
    rcases updateProductById_state o f idp b st with hs | ⟨j, d, hfj, hs⟩ <;>
      rw [hs]
    · exact h
    · exact findById_saveDoc_none st j _ i h
  | deleteR o f idp =>
    show findById (deleteProductById o f idp st).2 i = none
    rcases deleteProductById_state o f idp st with hs | ⟨j, hs⟩ <;> rw [hs]
    · exact h
    · exact findById_removeDoc_none st j i h
  | discountR o f raw idp tp =>
    show findById (addDiscount o f raw idp tp st).2 i = none
    rcases addDiscount_state o f raw idp tp st with hs | ⟨j, d, hfj, hs⟩ <;>
      rw [hs]
    · exact h
    · exact findById_saveDoc_none st j _ i h

/-- Absence of a below-supply id survives any sequence of mutating
requests. -/
theorem foldl_stepStore_absent (rs : List MutRequest) (st : Store)
    (i : ProductId) (hi : i < st.nextId) (h : findById st i = none) :
    findById (List.foldl (fun s r => stepStore r s) st rs) i = none := by
  induction rs generalizing st with
  | nil => exact h
  | cons r rs ih =>
    exact ih (stepStore r st)
      (Nat.lt_of_lt_of_le hi (stepStore_nextId r st))
      (stepStore_absent r st i hi h)

/-- C7: with a valid credential, delete on a well-formed id matching no
document answers 404 and leaves the store unchanged; on a present id it
answers 204 with an empty body, and getById on that id answers 404 after
any further sequence of mutating requests (read requests do not change
the store). -/
theorem delete_then_getById (o : VerifyOutcome) (u : Option String)
    (hv : verifyToken o = some u) (i : ProductId) (st : Store)
    (hb : st.bound) :
    (findById st i = none →
      deleteProductById o false (some i) st = (response404, st)) ∧
    ∀ d, findById st i = some d →
      (deleteProductById o false (some i) st).1 = ⟨204, .empty⟩ ∧
      ∀ rs : List MutRequest,
        getProductById false (some i)
            (List.foldl (fun s r => stepStore r s)
              (deleteProductById o false (some i) st).2 rs)
          = response404 := by
  constructor
  · intro h
    rw [deleteProductById_eq o u hv i st, h]
  · intro d hd
    have heq : deleteProductById o false (some i) st
        = (⟨204, .empty⟩, removeDoc st i) := by
      rw [deleteProductById_eq o u hv i st, hd]
    refine ⟨by rw [heq], fun rs => ?_⟩
    rw [heq]
    have hi : i < st.nextId := by
      unfold findById lookupEntry at hd
      cases he : st.docs.find? (fun p => p.1 == i) with
      | none => rw [he] at hd; simp at hd
      | some p =>
        have hp1 := List.find?_some he
        have hpm : p ∈ st.docs := List.mem_of_find?_eq_some he
        have hlt := hb p hpm
        have hpi : p.1 = i := by simpa using hp1
        rw [← hpi]
        exact hlt
    have hfold := foldl_stepStore_absent rs (removeDoc st i) i hi
      (findById_removeDoc_self st i)
    rw [getProductById_eq i _, hfold]

/-- Concrete instance of delete_then_getById, run through a further create
and a further update after the delete. -/
theorem delete_then_getById_witness :
    (deleteProductById (.okUserId "u") false (some 0) twoDocStore).1
        = ⟨204, .empty⟩ ∧
    getProductById false (some 0)
        (List.foldl (fun s r => stepStore r s)
          (deleteProductById (.okUserId "u") false (some 0) twoDocStore).2
          [.createR (.okUserId "u") false docA,
           .updateR (.okUserId "u") false (some 1) nameOnlyBody])
      = response404 := by
  have h := (delete_then_getById (.okUserId "u") (some "u") rfl 0 twoDocStore
    (by decide)).2 docA rfl
  exact ⟨h.1, h.2 [.createR (.okUserId "u") false docA,
    .updateR (.okUserId "u") false (some 1) nameOnlyBody]⟩

/-- C5 as stated is false: the search parameter is passed to the store as a
regular expression, so the parameter a.c matches the stored name abc even
though abc does not contain a.c as a substring; the 200 body therefore is
not the substring filter the claim describes. -/
theorem search_pattern_not_substring_cex :
    searchProducts false (some "a.c") abcStore
      = ⟨200, .products [(0, { docA with name := some "abc" })]⟩ ∧
    ciNameContains "a.c" { docA with name := some "abc" } = false ∧
    abcStore.docs.filter (fun p => ciNameContains "a.c" p.2) = [] := by
  decide

/-- On a pattern free of the dot metacharacter every parsed token is a
literal, so the anchored token match is the case-insensitive literal
match. -/
theorem matchHere_no_dot (pat : List Char) (hp : ∀ c ∈ pat, c ≠ '.')
    (s : List Char) :
    matchHere
        (pat.map (fun c => if c == '.' then RegexTok.dot else RegexTok.lit c))
        s
      = ciMatchHere pat s := by
  induction pat generalizing s with
  | nil => cases s <;> rfl
  | cons a as ih =>
    have ha : ((if a == '.' then RegexTok.dot else RegexTok.lit a))
        = RegexTok.lit a := by
      have : (a == '.') = false := by
        simpa using hp a (List.mem_cons_self a as)
      rw [this]
      rfl
    have hp' : ∀ c ∈ as, c ≠ '.' :=
      fun c hc => hp c (List.mem_cons_of_mem a hc)
    cases s with
    | nil => simp [List.map_cons, ha, matchHere, ciMatchHere]
    | cons b bs =>
      simp only [List.map_cons, ha, matchHere, ciMatchHere, tokMatches]
      rw [ih hp' bs]

/-- On a pattern free of the dot metacharacter, the unanchored regex search
is exactly case-insensitive substring containment. -/
theorem regexSearch_no_dot (pat : String) (hp : ∀ c ∈ pat.data, c ≠ '.')
    (s : List Char) :
    regexSearch (parsePattern pat) s = ciContains pat.data s := by
  induction s with
  | nil =>
    simp only [regexSearch, ciContains, parsePattern]
    exact matchHere_no_dot pat.data hp []
  | cons c cs ih =>
    simp only [regexSearch, ciContains, parsePattern] at ih ⊢
    rw [matchHere_no_dot pat.data hp (c :: cs), ih]

/-- Reduction of the search handler on a nonempty parameter. -/
theorem searchProducts_eq (pat : String) (hne : pat ≠ "") (st : Store) :
    searchProducts false (some pat) st
      = ⟨200, .products (st.docs.filter (fun p => nameMatches pat p.2))⟩ := by
  have h1 : searchProducts false (some pat) st
      = if pat == "" then
          ⟨400, .error "Missing search query parameter \"name\""⟩
        else ⟨200, .products (st.docs.filter (fun p => nameMatches pat p.2))⟩ :=
    rfl
  rw [h1, if_neg (by simpa using hne)]

/-- C5 amended: a missing or empty name parameter is answered 400; a
nonempty parameter is answered 200 with exactly the stored products whose
name matches the parameter as a case-insensitive regular expression,
which for a parameter containing no regex metacharacter is exactly
case-insensitive substring containment of the parameter in the name. -/
theorem search_spec (st : Store) :
    searchProducts false none st
        = ⟨400, .error "Missing search query parameter \"name\""⟩ ∧
    searchProducts false (some "") st
        = ⟨400, .error "Missing search query parameter \"name\""⟩ ∧
    ∀ pat : String, pat ≠ "" → (∀ c ∈ pat.data, c ∉ regexMetaChars) →
      searchProducts false (some pat) st
        = ⟨200, .products
            (st.docs.filter (fun p => ciNameContains pat p.2))⟩ := by
  refine ⟨rfl, rfl, ?_⟩
  intro pat hne hmeta
  have hdot : ∀ c ∈ pat.data, c ≠ '.' := by
    intro c hc heq
    exact hmeta c hc (by rw [heq]; simp [regexMetaChars])
  have hpt : ∀ d : ProductDoc, nameMatches pat d = ciNameContains pat d := by
    intro d
    unfold nameMatches ciNameContains
    cases d.name with
    | none => rfl
    | some n => exact regexSearch_no_dot pat hdot n.data
  rw [searchProducts_eq pat hne st]
  have hfilter : st.docs.filter (fun p => nameMatches pat p.2)
      = st.docs.filter (fun p => ciNameContains pat p.2) := by
    apply List.filter_congr
    intro p _
    exact hpt p.2
  rw [hfilter]

/-- Concrete instance of search_spec. -/
theorem search_spec_witness :
    searchProducts false (some "apple") twoDocStore
      = ⟨200, .products (twoDocStore.docs.filter
          (fun p => ciNameContains "apple" p.2))⟩ :=
  (search_spec twoDocStore).2.2 "apple" (by decide) (by decide)

/-- C10: discountId is a persisted optional field beyond the documented
data model: a create whose body carries discountId stores it with the
assigned id, getById and the list route return the stored document with
it, and an update whose body carries discountId writes it through the
$set merge. -/
theorem discountId_persisted (u s : String) (body : ProductBody)
    (hbody : body.discountId = some s) (st : Store) (hb : st.bound) :
    (createProduct (.okUserId u) false body st).1
        = ⟨201, .product (st.nextId, body)⟩ ∧
    findById (createProduct (.okUserId u) false body st).2 st.nextId
        = some body ∧
    getProductById false (some st.nextId)
        (createProduct (.okUserId u) false body st).2
      = ⟨200, .product (st.nextId, body)⟩ ∧
    getProducts false (createProduct (.okUserId u) false body st).2
        = ⟨200, .products (st.docs ++ [(st.nextId, body)])⟩ ∧
    (st.nextId, body) ∈ st.docs ++ [(st.nextId, body)] ∧
    ∀ i d st', findById st' i = some d →
      findById (updateProductById (.okUserId u) false (some i) body st').2 i
          = some (setFields d body) ∧
      (setFields d body).discountId = some s := by
  have heq : createProduct (.okUserId u) false body st
      = (⟨201, .product (st.nextId, body)⟩, (insertDoc st body).2) :=
    createProduct_eq (.okUserId u) (some u) rfl body st
  refine ⟨by rw [heq], ?_, ?_, ?_, ?_, ?_⟩
  · rw [heq]
    exact findById_insertDoc_self st body hb
  · rw [heq, getProductById_eq st.nextId (insertDoc st body).2,
      findById_insertDoc_self st body hb]
  · rw [heq]
    rfl
  · exact List.mem_append_right _ (List.mem_singleton.2 rfl)
  · intro i d st' hf
    have h2 : updateProductById (.okUserId u) false (some i) body st'
        = (⟨200, .product (i, setFields d body)⟩,
           saveDoc st' i (setFields d body)) := by
      rw [updateProductById_eq (.okUserId u) (some u) rfl i body st', hf]
    refine ⟨?_, ?_⟩
    · rw [h2]
      exact findById_saveDoc_self st' i d _ hf
    · simp [setFields, updField, hbody]

/-- Concrete instance of discountId_persisted. -/
theorem discountId_persisted_witness :
    (createProduct (.okUserId "u") false
        { docB with discountId := some "d1" } twoDocStore).1
      = ⟨201, .product (2, { docB with discountId := some "d1" })⟩ :=
  (discountId_persisted "u" "d1" { docB with discountId := some "d1" } rfl
    twoDocStore (by decide)).1
